import Mathlib

/-!
Shallow embedding of the appstoreconnectapi client (src/test.py and
src/appstoreconnect/resources.py) together with proofs that settle the
frozen specification claims.

JSON documents are modelled one level deep, as the code inspects them:
a resource object is a type name, an id, an attribute map and a
relationship map.  A relationship carries a data slot (null, one object,
or a list of objects), an optional hypermedia related link, and a paging
flag.  Both bare references and full embedded records are objects, which
mirrors the untyped Python dicts: the code distinguishes them only by
the keys it happens to read.
-/

/-- Relationship data slot, parameterised by the object type: absent or
null, a single object, or a list of objects.  Mirrors the value of
rel["data"] as the code inspects it with isinstance dict/list. -/
inductive RelDataF (α : Type) : Type where
  | null : RelDataF α
  | one (o : α) : RelDataF α
  | many (os : List α) : RelDataF α

/-- One relationship entry: its data slot, the optional
links.related URL and the meta.paging flag, the only parts of the
relationship dict that the code reads. -/
structure RelEntryF (α : Type) : Type where
  data : RelDataF α
  related : Option String
  paging : Bool

/-- A JSON:API resource object as the code reads it: type, id,
attributes and relationships.  Nested objects appear inside the
relationship data slots. -/
inductive Obj : Type where
  | mk (type : String) (id : String)
      (attrs : List (String × String))
      (rels : List (String × RelEntryF Obj))

/-- Relationship data over resource objects. -/
abbrev RelData := RelDataF Obj

/-- Relationship entry over resource objects. -/
abbrev RelEntry := RelEntryF Obj

/-- The type name of an object (obj["type"]). -/
def Obj.type : Obj → String
  | .mk t _ _ _ => t

/-- The id of an object (obj["id"]). -/
def Obj.id : Obj → String
  | .mk _ i _ _ => i

/-- The attribute map of an object (obj["attributes"]). -/
def Obj.attrs : Obj → List (String × String)
  | .mk _ _ a _ => a

/-- The relationship map of an object (obj["relationships"]). -/
def Obj.rels : Obj → List (String × RelEntryF Obj)
  | .mk _ _ _ r => r

/-- Replace the data slot of a relationship entry, keeping the link and
paging parts (the in-place update rel["data"] = ...). -/
def RelEntryF.withData (re : RelEntryF α) (d : RelDataF α) : RelEntryF α :=
  { re with data := d }

/-- The links section of a page; only links.next is ever read. -/
structure Links : Type where
  next : Option String

/-- The top-level data value of a page: a single object (a by-id
response) or a list of objects. -/
inductive PageData : Type where
  | one (o : Obj) : PageData
  | many (os : List Obj) : PageData

/-- A decoded JSON:API page: data, the optional included list, and the
links section. -/
structure Page : Type where
  data : PageData
  included : Option (List Obj)
  links : Links

/-- The empty type-and-id index (defaultdict(dict) before any insert). -/
def emptyIndex : String → String → Option Obj := fun _ _ => none

/-- Insert one included object into the index under its own type and id,
overwriting any previous entry (includes[obj["type"]][obj["id"]] = obj). -/
def indexInsert (idx : String → String → Option Obj) (o : Obj) :
    String → String → Option Obj :=
  fun t i => if t = o.type ∧ i = o.id then some o else idx t i

/-- Build the includes index from the included list, later entries
overwriting earlier ones exactly as repeated dict assignment does. -/
def buildIndex (included : List Obj) : String → String → Option Obj :=
  included.foldl indexInsert emptyIndex

/-- Look up the object referenced by the type and id of o
(includes[obj["type"]][obj["id"]]); none models the KeyError raised when
the reference has no matching included entry. -/
def lookupRef (idx : String → String → Option Obj) (o : Obj) : Option Obj :=
  idx o.type o.id

/-- Map a fallible function over a list, failing as soon as one element
fails; the Option-level traversal used to model comprehensions whose
body can raise. -/
def traverseOpt (f : α → Option β) : List α → Option (List β)
  | [] => some []
  | a :: as =>
    match f a with
    | none => none
    | some b =>
      match traverseOpt f as with
      | none => none
      | some bs => some (b :: bs)

/-- Fold one relationship data slot: a dict is replaced by its included
record, a list element-wise in order, null left alone; none models the
KeyError on an unmatched reference. -/
def foldRelData (idx : String → String → Option Obj) : RelData → Option RelData
  | .null => some .null
  | .one o =>
    match lookupRef idx o with
    | some r => some (.one r)
    | none => none
  | .many os =>
    match traverseOpt (lookupRef idx) os with
    | some rs => some (.many rs)
    | none => none

/-- Fold one relationship entry by folding its data slot in place. -/
def foldRelEntry (idx : String → String → Option Obj) (re : RelEntry) :
    Option RelEntry :=
  match foldRelData idx re.data with
  | some d => some (re.withData d)
  | none => none

/-- Fold one named relationship pair; the name is untouched because the
code iterates obj["relationships"].values() mutating values only. -/
def relPairFold (idx : String → String → Option Obj)
    (pr : String × RelEntry) : Option (String × RelEntry) :=
  match foldRelEntry idx pr.2 with
  | some re => some (pr.1, re)
  | none => none

/-- Fold every relationship of one primary data object. -/
def foldObj (idx : String → String → Option Obj) : Obj → Option Obj
  | .mk t i attrs rels =>
    match traverseOpt (relPairFold idx) rels with
    | some rels2 => some (.mk t i attrs rels2)
    | none => none

/-- AppStoreConnectApi.fold_included_into_page_data: if the page has no
included list or its data is not a list, return the page unchanged;
otherwise index the included objects by type and id and replace every
relationship reference of every primary record by the indexed record.
The Python mutates in place and raises KeyError on an unmatched
reference; here the result is none in that case. -/
def fold_included_into_page_data (p : Page) : Option Page :=
  match p.included, p.data with
  | some incl, .many os =>
    match traverseOpt (foldObj (buildIndex incl)) os with
    | some os2 => some { p with data := .many os2 }
    | none => none
  | _, _ => some p

/-- Soundness of an index: every stored object is keyed by its own type
and id, as repeated assignment includes[obj["type"]][obj["id"]] = obj
guarantees. -/
def IndexSound (idx : String → String → Option Obj) : Prop :=
  ∀ t i r, idx t i = some r → r.type = t ∧ r.id = i

/-- Spec-side fold of one relationship data slot, following the words of
the specification: a reference with a matching included entry is
replaced by the full record, a reference with no match remains a bare
stub, and the transform is total. -/
def foldRelDataSpec (idx : String → String → Option Obj) : RelData → RelData
  | .null => .null
  | .one o =>
    match lookupRef idx o with
    | some r => .one r
    | none => .one o
  | .many os =>
    .many (os.map (fun o =>
      match lookupRef idx o with
      | some r => r
      | none => o))

/-- Spec-side fold of one relationship entry. -/
def foldRelEntrySpec (idx : String → String → Option Obj) (re : RelEntry) :
    RelEntry :=
  re.withData (foldRelDataSpec idx re.data)

/-- Spec-side fold of one primary data object. -/
def foldObjSpec (idx : String → String → Option Obj) : Obj → Obj
  | .mk t i attrs rels =>
    .mk t i attrs (rels.map (fun pr => (pr.1, foldRelEntrySpec idx pr.2)))

/-- Spec-side fold of a whole page, total and stub-preserving, written
from the specification sentences for comparison with the code fold. -/
def foldSpec (p : Page) : Page :=
  match p.included, p.data with
  | some incl, .many os =>
    { p with data := .many (os.map (foldObjSpec (buildIndex incl))) }
  | _, _ => p

/-- A relationship data slot resolves when each of its references has a
matching entry in the index. -/
def relDataResolves (idx : String → String → Option Obj) : RelData → Bool
  | .null => true
  | .one o => (lookupRef idx o).isSome
  | .many os => os.all (fun o => (lookupRef idx o).isSome)

/-- A named relationship entry resolves when its data slot does. -/
def relEntryResolves (idx : String → String → Option Obj)
    (pr : String × RelEntry) : Bool :=
  relDataResolves idx pr.2.data

/-- A primary object resolves when all of its relationships do. -/
def objResolves (idx : String → String → Option Obj) (o : Obj) : Bool :=
  o.rels.all (relEntryResolves idx)

/-- A page resolves when every reference of every primary record has a
matching included entry; pages the fold leaves untouched resolve
trivially. -/
def pageResolves (p : Page) : Bool :=
  match p.included, p.data with
  | some incl, .many os => os.all (objResolves (buildIndex incl))
  | _, _ => true

/-- One attempt outcome offered by the wire: a network timeout or an
HTTP response with its status and the optional X-Rate-Limit header. -/
inductive HttpAttempt : Type where
  | timeout : HttpAttempt
  | response (status : Nat) (rateLimit : Option String) : HttpAttempt
deriving DecidableEq

/-- The exceptions the request loop can raise: the re-raised HTTPError
with its status, the KeyError from a missing X-Rate-Limit header, and
the RetryError after the attempt budget is spent. -/
inductive ReqError : Type where
  | httpError (status : Nat) : ReqError
  | keyError : ReqError
  | retryExhausted : ReqError
deriving DecidableEq

/-- Result of a request call: the successful status or the raised
error, each paired with the number of requests issued. -/
inductive RequestOutcome : Type where
  | success (status : Nat) (made : Nat) : RequestOutcome
  | failure (e : ReqError) (made : Nat) : RequestOutcome
deriving DecidableEq

/-- Number of requests issued by an outcome. -/
def RequestOutcome.made : RequestOutcome → Nat
  | .success _ m => m
  | .failure _ m => m

/-- Whether a digit character stands at the head; mirrors one step of
the regex digit class. -/
def readDigits (cs : List Char) : List Char :=
  cs.takeWhile (fun c => c.isDigit)

/-- Numeric value of a digit string, as int() computes it. -/
def digitsToNat (cs : List Char) : Nat :=
  cs.foldl (fun a c => a * 10 + (c.toNat - 48)) 0

/-- Whether the first list stands at the head of the second. -/
def beginsWith : List Char → List Char → Bool
  | [], _ => true
  | _ :: _, [] => false
  | p :: ps, c :: cs => p = c && beginsWith ps cs

/-- Leftmost match of the regex user-hour-rem:(\d+): scan for the
literal token followed by at least one digit and read the digits. -/
def findUserHourRem : List Char → Option Nat
  | [] => none
  | c :: cs =>
    if beginsWith "user-hour-rem:".data (c :: cs) then
      let ds := readDigits ((c :: cs).drop "user-hour-rem:".length)
      if ds.isEmpty then findUserHourRem cs else some (digitsToNat ds)
    else findUserHourRem cs

/-- re.search(r"user-hour-rem:(\d+)", header) over the header string. -/
def parseUserHourRem (s : String) : Option Nat :=
  findUserHourRem s.data

/-- The retryable status set (401, 429, 500) of the request loop. -/
def retryableStatus (status : Nat) : Bool :=
  status = 401 || status = 429 || status = 500

/-- AppStoreConnectApi.request: the attempt loop, with the server
modelled as the attempt-indexed sequence of wire outcomes.  A timeout
retries; a status below 400 returns; otherwise the X-Rate-Limit header
is read (KeyError when absent), a user-hour-rem token of zero re-raises
the HTTPError, a non-retryable status re-raises it, and a retryable one
loops; an empty budget raises RetryError. -/
def requestFrom (server : Nat → HttpAttempt) : Nat → Nat → RequestOutcome
  | 0, made => .failure .retryExhausted made
  | budget + 1, made =>
    match server made with
    | .timeout => requestFrom server budget (made + 1)
    | .response status rateLimit =>
      if status < 400 then .success status (made + 1)
      else
        match rateLimit with
        | none => .failure .keyError (made + 1)
        | some hdr =>
          match parseUserHourRem hdr with
          | some n =>
            if ¬ n > 0 then .failure (.httpError status) (made + 1)
            else if retryableStatus status then
              requestFrom server budget (made + 1)
            else .failure (.httpError status) (made + 1)
          | none =>
            if retryableStatus status then
              requestFrom server budget (made + 1)
            else .failure (.httpError status) (made + 1)

/-- A request call with the default budget retry=10, starting at the
first attempt. -/
def request (server : Nat → HttpAttempt) : RequestOutcome :=
  requestFrom server 10 0

/-- Python truthiness of the loop condition while path_or_url: false for
None and for the empty string. -/
def truthy : Option String → Bool
  | none => false
  | some s => !s.isEmpty

/-- AppStoreConnectApi.get_data_iter, run to completion: fetch the page
at the current URL, fold it, read links.next from the folded page, and
collect the yielded data values together with the URLs fetched, until
the next link is falsy.  Fuel bounds the loop; none models a fetch
failure, a fold KeyError, or running out of fuel with more pages due. -/
def get_data_iter_run (server : String → Option Page) :
    Nat → Option String → Option (List String × List PageData)
  | 0, u => if truthy u then none else some ([], [])
  | _ + 1, none => some ([], [])
  | fuel + 1, some url =>
    if url.isEmpty then some ([], [])
    else
      match server url with
      | none => none
      | some page =>
        match fold_included_into_page_data page with
        | none => none
        | some page2 =>
          match get_data_iter_run server fuel page2.links.next with
          | none => none
          | some (us, ds) => some (url :: us, page2.data :: ds)

/-- The records of one yielded data value when it is a list; a single
object is not a list of records, so the all-pages concatenation is not
defined on it (Python would iterate the keys of the dict instead). -/
def pageDataList : PageData → Option (List Obj)
  | .many os => some os
  | .one _ => none

/-- AppStoreConnectApi.get_all_data: the concatenation of all yielded
page data lists. -/
def get_all_data_run (server : String → Option Page) (fuel : Nat)
    (u : Option String) : Option (List Obj) :=
  match get_data_iter_run server fuel u with
  | none => none
  | some (_, ds) =>
    match traverseOpt pageDataList ds with
    | none => none
    | some dss => some dss.flatten

/-- A finite page chain served by the server: each listed URL is
nonempty and fetches its page, every page before the last links to the
next listed URL, and the last page carries a falsy next link. -/
inductive PageChain (server : String → Option Page) :
    List (String × Page) → Prop where
  | last (u : String) (p : Page) :
      u.isEmpty = false → server u = some p → truthy p.links.next = false →
      PageChain server [(u, p)]
  | cons (u : String) (p : Page) (u2 : String) (p2 : Page)
      (rest : List (String × Page)) :
      u.isEmpty = false → server u = some p →
      p.links.next = some u2 → u2.isEmpty = false →
      PageChain server ((u2, p2) :: rest) →
      PageChain server ((u, p) :: (u2, p2) :: rest)

/-- The claim set and header fields of a minted JWT: issuer, expiry and
audience claims, with the ES256 algorithm, key id and token type in the
header.  jwt.encode is modelled by this record, which determines the
encoded token for a fixed signing key. -/
structure Jwt : Type where
  iss : String
  exp : Nat
  aud : String
  alg : String
  kid : String
  typ : String
deriving DecidableEq

/-- The BearerToken credential state: issuer id, key id, key material,
the cached expiry and the cached token (None before the first mint). -/
structure BearerToken : Type where
  issuer_id : String
  key_id : String
  key : String
  expires : Nat
  _token : Option Jwt
deriving DecidableEq

/-- BearerToken.__init__: expiry zero and no cached token. -/
def BearerToken.init (issuer_id key_id key : String) : BearerToken :=
  { issuer_id := issuer_id, key_id := key_id, key := key,
    expires := 0, _token := none }

/-- The token minted for a credential at a given expiry: the payload
iss/exp/aud and the header alg/kid/typ written by the code. -/
def mintToken (s : BearerToken) (expires2 : Nat) : Jwt :=
  { iss := s.issuer_id, exp := expires2, aud := "appstoreconnect-v1",
    alg := "ES256", kid := s.key_id, typ := "JWT" }

/-- The BearerToken.token property at time now: when now exceeds the
cached expiry, advance the expiry by 1200 seconds from now, mint and
cache a fresh token; otherwise return the cached token unchanged. -/
def BearerToken.token (s : BearerToken) (now : Nat) :
    Option Jwt × BearerToken :=
  if now > s.expires then
    let expires2 := now + 1200
    let t := mintToken s expires2
    (some t, { s with expires := expires2, _token := some t })
  else
    (s._token, s)

/-- Well-formedness of a credential state: any cached token carries the
cached expiry as its exp claim; this holds from init and is preserved by
every token access. -/
def BearerToken.WF (s : BearerToken) : Prop :=
  ∀ t, s._token = some t → t.exp = s.expires

/-- The class-level schema a Resource subclass declares: relationship
names with their multiple flag. -/
structure ResourceClass : Type where
  relationships : List (String × Bool)

/-- The raw record held by a Resource instance: its id, attribute map,
relationship map and any included objects embedded in the record. -/
structure ResourceData : Type where
  id : Option String
  attributes : List (String × String)
  relationships : List (String × RelEntry)
  included : List Obj

/-- A fetch of a related URL performed by the Api: a collection fetch
for a multiple relationship or a single fetch otherwise. -/
inductive FetchEvent : Type where
  | collectionFetch (url : String) : FetchEvent
  | singleFetch (url : String) : FetchEvent
deriving DecidableEq

/-- The lazy handle returned for a declared relationship: the closure
captures the multiple flag, the relationship data slot, the related
link and the inclusions index built from the embedded included list. -/
structure RelGetter : Type where
  multiple : Bool
  relData : RelData
  relatedLink : Option String
  inclusions : String → String → Option Obj

/-- Outcome of Resource.__getattr__: the id, an attribute value, the
lazy relationship getter, the KeyError from a declared relationship
missing in the data, or AttributeError. -/
inductive GetAttrResult : Type where
  | idVal (v : Option String) : GetAttrResult
  | attrVal (v : String) : GetAttrResult
  | lazy (g : RelGetter) : GetAttrResult
  | keyError : GetAttrResult
  | attributeError : GetAttrResult

/-- Resource.__getattr__: "id" reads the record id; a name present in
the data attributes returns its value; a declared relationship returns
the lazy getter built from the relationship entry and the inclusions
index; anything else raises AttributeError. -/
def Resource.getattr (cls : ResourceClass) (d : ResourceData)
    (item : String) : GetAttrResult :=
  if item = "id" then .idVal d.id
  else
    match d.attributes.lookup item with
    | some v => .attrVal v
    | none =>
      match cls.relationships.lookup item with
      | some multiple =>
        match d.relationships.lookup item with
        | some entry =>
          .lazy { multiple := multiple, relData := entry.data,
                  relatedLink := entry.related,
                  inclusions := buildIndex d.included }
        | none => .keyError
      | none => .attributeError

/-- Modelled from the spec: Api.get_related_resource and
Api.get_related_resources live in appstoreconnect/api.py, which is not
under src/; the specification describes them as synchronous fetches of
the hypermedia related link, performed on every invocation with no
memoization.  Invoking the getter reads the captured related link
(KeyError when the data carries none) and records exactly one fetch
event of the kind selected by the multiple flag. -/
def invokeGetter (g : RelGetter) (trace : List FetchEvent) :
    Option (List FetchEvent) :=
  match g.relatedLink with
  | none => none
  | some url =>
    if g.multiple then some (trace ++ [.collectionFetch url])
    else some (trace ++ [.singleFetch url])

/-- Whether a type name is already registered (name in registry).
Registered class objects are modelled by bare numerals. -/
def registryContains (reg : List (String × Nat)) (name : String) : Bool :=
  reg.any (fun pr => decide (pr.1 = name))

/-- Dictionary read d[name] on an association list. -/
def dictGet (reg : List (String × Nat)) (name : String) : Option Nat :=
  match reg with
  | [] => none
  | pr :: tl => if pr.1 = name then some pr.2 else dictGet tl name

/-- resources.resource_type: assert the name is not yet registered,
then append the class under the name; the failed assertion leaves the
registry untouched.  Class objects are modelled by bare numerals. -/
def resource_type (reg : List (String × Nat)) (name : String) (cls : Nat) :
    Except String (List (String × Nat)) :=
  if registryContains reg name then .error "duplicate type name"
  else .ok (reg ++ [(name, cls)])

/-- Python dict assignment d[name] = cls on an association list:
overwrite the existing entry in place, or append a new one. -/
def dictSet (reg : List (String × Nat)) (name : String) (cls : Nat) :
    List (String × Nat) :=
  if registryContains reg name then
    reg.map (fun pr => if pr.1 = name then (name, cls) else pr)
  else reg ++ [(name, cls)]

/-- test.Object.objectclass: record the class in Object.types under its
type name with no duplicate check, so a repeated name overwrites. -/
def objectclass (types : List (String × Nat)) (name : String) (cls : Nat) :
    List (String × Nat) :=
  dictSet types name cls

/-- test.Device.Meta.update: build the attributes dict from the
keyword arguments, inserting name and status only when supplied. -/
def Device.Meta.update (name : Option String) (status : Option String) :
    List (String × String) :=
  (match name with
   | some n => [("name", n)]
   | none => []) ++
  (match status with
   | some s => [("status", s)]
   | none => [])

/-- The outgoing PATCH document built by Object.update: the data dict
from Meta.update together with the id and the class type name. -/
structure UpdateDoc : Type where
  attributes : List (String × String)
  id : String
  type : String

/-- Object.update specialised to Device: the document PATCHed to
v1/devices/id. -/
def Device.update_payload (id : String) (name status : Option String) :
    UpdateDoc :=
  { attributes := Device.Meta.update name status, id := id,
    type := "devices" }

/-- A bare reference: a dict carrying only type and id. -/
def bareRef (t i : String) : Obj := .mk t i [] []

/-- A small full record fixture of the given type and id. -/
def fullRec (t i : String) : Obj := .mk t i [("name", "n")] []

/-- A relationship entry holding a single reference. -/
def relOne (t i : String) : RelEntry :=
  { data := .one (bareRef t i), related := none, paging := false }

/-- A relationship entry holding a list of references. -/
def relMany (t : String) (is : List String) : RelEntry :=
  { data := .many (is.map (bareRef t)), related := none, paging := false }

/-- Fixture page whose only primary record references an id absent from
the included list. -/
def c2badPage : Page :=
  { data := .many [.mk "profiles" "p1" []
      [("certificates", relOne "certificates" "6")]],
    included := some [fullRec "certificates" "5"],
    links := { next := none } }

/-- Fixture page whose references all resolve in the included list. -/
def c2goodPage : Page :=
  { data := .many [.mk "profiles" "p1" []
      [("bundleId", relOne "bundleIds" "b1"),
       ("certificates", relMany "certificates" ["5", "6"])]],
    included := some [fullRec "bundleIds" "b1", fullRec "certificates" "5",
      fullRec "certificates" "6"],
    links := { next := none } }

/-- Fixture page for the idempotence witness. -/
def c5page : Page :=
  { data := .many [.mk "profiles" "p9" []
      [("devices", relMany "devices" ["d1"])]],
    included := some [fullRec "devices" "d1"],
    links := { next := none } }

/-- Fixture records served across the three pagination pages. -/
def w1 : Obj := fullRec "widgets" "1"

/-- Second fixture record. -/
def w2 : Obj := fullRec "widgets" "2"

/-- Third fixture record. -/
def w3 : Obj := fullRec "widgets" "3"

/-- Fourth fixture record. -/
def w4 : Obj := fullRec "widgets" "4"

/-- A page without an included list. -/
def plainPage (os : List Obj) (next : Option String) : Page :=
  { data := .many os, included := none, links := { next := next } }

/-- First page of the pagination fixture. -/
def page1 : Page := plainPage [w1, w2] (some "u2")

/-- Second page of the pagination fixture. -/
def page2 : Page := plainPage [w3] (some "u3")

/-- Third and last page of the pagination fixture. -/
def page3 : Page := plainPage [w4] none

/-- The pagination fixture server: three URLs, three pages. -/
def srv3 : String → Option Page := fun u =>
  if u = "u1" then some page1
  else if u = "u2" then some page2
  else if u = "u3" then some page3
  else none

/-- Fixture rate-limit headers seen on 429 responses. -/
def hdrRem0 : String := "user-hour-lim:3600;user-hour-rem:0"

/-- Header with remaining quota. -/
def hdrRem5 : String := "user-hour-lim:3600;user-hour-rem:5"

/-- Fixture server answering 429 with zero remaining quota. -/
def srv429zero : Nat → HttpAttempt := fun _ => .response 429 (some hdrRem0)

/-- Fixture server answering 429 with remaining quota, then 200. -/
def srv429five : Nat → HttpAttempt := fun k =>
  if k = 0 then .response 429 (some hdrRem5) else .response 200 (some hdrRem5)

/-- Fixture server answering 404 with the rate-limit header present. -/
def srv404hdr : Nat → HttpAttempt := fun _ => .response 404 (some hdrRem5)

/-- Fixture server answering 404 with no rate-limit header. -/
def srv404bare : Nat → HttpAttempt := fun _ => .response 404 none

/-- Fixture token cached in the credential state below, minted with
expiry 2000. -/
def tokOld : Jwt :=
  { iss := "iss-1", exp := 2000, aud := "appstoreconnect-v1",
    alg := "ES256", kid := "KEY1", typ := "JWT" }

/-- Fixture credential state holding a cached token minted at expiry
2000. -/
def s4 : BearerToken :=
  { issuer_id := "iss-1", key_id := "KEY1", key := "pem",
    expires := 2000, _token := some tokOld }

/-- Fixture resource class declaring one single and one multiple
relationship, as Profile does. -/
def c6cls : ResourceClass :=
  { relationships := [("bundleId", false), ("certificates", true)] }

/-- Fixture resource data whose certificates relationship holds bare
references and a related link. -/
def c6data : ResourceData :=
  { id := some "p1", attributes := [("name", "prof")],
    relationships := [("certificates",
      { data := .many [bareRef "certificates" "5"],
        related := some "https://api.example/v1/profiles/p1/certificates",
        paging := false })],
    included := [fullRec "certificates" "5"] }

/-- Fixture page with data as a single object and an included list. -/
def c10onePage : Page :=
  { data := .one (fullRec "devices" "d7"),
    included := some [fullRec "certificates" "5"],
    links := { next := none } }

/-- Fixture page with list data and no included key. -/
def c10noInclPage : Page :=
  { data := .many [.mk "profiles" "p1" []
      [("certificates", relOne "certificates" "6")]],
    included := none,
    links := { next := none } }

/-- Inserting an object keyed by its own type and id preserves index
soundness. -/
theorem indexInsert_sound (idx : String → String → Option Obj) (o : Obj)
    (h : IndexSound idx) : IndexSound (indexInsert idx o) := by
  intro t i r hr
  unfold indexInsert at hr
  by_cases hc : t = o.type ∧ i = o.id
  · rw [if_pos hc] at hr
    cases hr
    exact ⟨hc.1.symm, hc.2.symm⟩
  · rw [if_neg hc] at hr
    exact h t i r hr

/-- Folding inserts over any sound index yields a sound index. -/
theorem foldl_indexInsert_sound (l : List Obj) :
    ∀ idx, IndexSound idx → IndexSound (l.foldl indexInsert idx) := by
  induction l with
  | nil => intro idx h; exact h
  | cons o os ih =>
    intro idx h
    exact ih (indexInsert idx o) (indexInsert_sound idx o h)

/-- The includes index built from any included list is sound. -/
theorem buildIndex_sound (incl : List Obj) : IndexSound (buildIndex incl) := by
  unfold buildIndex
  exact foldl_indexInsert_sound incl emptyIndex (fun t i r hr => by
    simp [emptyIndex] at hr)

/-- Looking up an object fetched from a sound index returns that same
object: the replacement carries the type and id it was keyed by. -/
theorem lookupRef_stable (idx : String → String → Option Obj)
    (hidx : IndexSound idx) :
    ∀ o r, lookupRef idx o = some r → lookupRef idx r = some r := by
  intro o r h
  obtain ⟨ht, hi⟩ := hidx o.type o.id r h
  unfold lookupRef at h ⊢
  rw [ht, hi]
  exact h

/-- A pointwise stable fallible map is stable under list traversal. -/
theorem traverseOpt_stable (f : α → Option α)
    (hf : ∀ x y, f x = some y → f y = some y) :
    ∀ xs ys, traverseOpt f xs = some ys → traverseOpt f ys = some ys := by
  intro xs
  induction xs with
  | nil =>
    intro ys h
    simp only [traverseOpt] at h
    cases h
    rfl
  | cons a as ih =>
    intro ys h
    simp only [traverseOpt] at h
    cases hfa : f a with
    | none => rw [hfa] at h; cases h
    | some b =>
      rw [hfa] at h
      cases htl : traverseOpt f as with
      | none => rw [htl] at h; cases h
      | some bs =>
        rw [htl] at h
        cases h
        simp only [traverseOpt, hf a b hfa, ih bs htl]

/-- Refolding a folded relationship data slot is a no-op. -/
theorem foldRelData_stable (idx : String → String → Option Obj)
    (hidx : IndexSound idx) :
    ∀ d d', foldRelData idx d = some d' → foldRelData idx d' = some d' := by
  intro d d' h
  cases d with
  | null =>
    simp only [foldRelData] at h
    cases h
    rfl
  | one o =>
    simp only [foldRelData] at h
    cases hl : lookupRef idx o with
    | none => rw [hl] at h; cases h
    | some r =>
      rw [hl] at h
      cases h
      simp only [foldRelData, lookupRef_stable idx hidx o r hl]
  | many os =>
    simp only [foldRelData] at h
    cases htr : traverseOpt (lookupRef idx) os with
    | none => rw [htr] at h; cases h
    | some rs =>
      rw [htr] at h
      cases h
      simp only [foldRelData,
        traverseOpt_stable (lookupRef idx) (lookupRef_stable idx hidx) os rs htr]

/-- Refolding a folded relationship entry is a no-op. -/
theorem foldRelEntry_stable (idx : String → String → Option Obj)
    (hidx : IndexSound idx) :
    ∀ re re', foldRelEntry idx re = some re' →
      foldRelEntry idx re' = some re' := by
  intro re re' h
  simp only [foldRelEntry] at h
  cases hd : foldRelData idx re.data with
  | none => rw [hd] at h; cases h
  | some d =>
    rw [hd] at h
    cases h
    simp only [foldRelEntry, RelEntryF.withData,
      foldRelData_stable idx hidx re.data d hd]

/-- Refolding a folded named relationship pair is a no-op. -/
theorem relPairFold_stable (idx : String → String → Option Obj)
    (hidx : IndexSound idx) :
    ∀ pr pr', relPairFold idx pr = some pr' →
      relPairFold idx pr' = some pr' := by
  intro pr pr' h
  simp only [relPairFold] at h
  cases he : foldRelEntry idx pr.2 with
  | none => rw [he] at h; cases h
  | some re =>
    rw [he] at h
    cases h
    simp only [relPairFold, foldRelEntry_stable idx hidx pr.2 re he]

/-- Refolding a folded primary object is a no-op. -/
theorem foldObj_stable (idx : String → String → Option Obj)
    (hidx : IndexSound idx) :
    ∀ o o', foldObj idx o = some o' → foldObj idx o' = some o' := by
  intro o o' h
  cases o with
  | mk t i attrs rels =>
    simp only [foldObj] at h
    cases htr : traverseOpt (relPairFold idx) rels with
    | none => rw [htr] at h; cases h
    | some rels2 =>
      rw [htr] at h
      cases h
      simp only [foldObj,
        traverseOpt_stable (relPairFold idx) (relPairFold_stable idx hidx)
          rels rels2 htr]

/-- A traversal whose elements all satisfy a guard that makes the
fallible map succeed computes the plain map. -/
theorem traverseOpt_eq_map (f : α → Option β) (g : α → β) (p : α → Bool)
    (hfg : ∀ x, p x = true → f x = some (g x)) :
    ∀ xs, xs.all p = true → traverseOpt f xs = some (xs.map g) := by
  intro xs
  induction xs with
  | nil => intro _; rfl
  | cons a as ih =>
    intro h
    rw [List.all_cons, Bool.and_eq_true] at h
    simp only [traverseOpt, hfg a h.1, ih h.2, List.map_cons]

/-- A resolving reference looks up to its spec-side replacement. -/
theorem lookupRef_resolves (idx : String → String → Option Obj) (o : Obj)
    (h : (lookupRef idx o).isSome = true) :
    lookupRef idx o = some (match lookupRef idx o with
      | some r => r
      | none => o) := by
  cases hl : lookupRef idx o with
  | none => rw [hl] at h; cases h
  | some r => rfl

/-- On a resolving data slot the code fold computes the spec fold. -/
theorem foldRelData_resolves (idx : String → String → Option Obj)
    (d : RelData) (h : relDataResolves idx d = true) :
    foldRelData idx d = some (foldRelDataSpec idx d) := by
  cases d with
  | null => rfl
  | one o =>
    simp only [relDataResolves] at h
    cases hl : lookupRef idx o with
    | none => rw [hl] at h; cases h
    | some r => simp only [foldRelData, foldRelDataSpec, hl]
  | many os =>
    simp only [relDataResolves] at h
    simp only [foldRelData, foldRelDataSpec]
    rw [traverseOpt_eq_map (lookupRef idx)
      (fun o => match lookupRef idx o with
        | some r => r
        | none => o)
      (fun o => (lookupRef idx o).isSome) (lookupRef_resolves idx) os h]

/-- On a resolving named relationship pair the code fold computes the
spec fold. -/
theorem relPairFold_resolves (idx : String → String → Option Obj)
    (pr : String × RelEntry) (h : relEntryResolves idx pr = true) :
    relPairFold idx pr = some (pr.1, foldRelEntrySpec idx pr.2) := by
  simp only [relEntryResolves] at h
  simp only [relPairFold, foldRelEntry, foldRelData_resolves idx pr.2.data h,
    foldRelEntrySpec]

/-- On a resolving primary object the code fold computes the spec fold. -/
theorem foldObj_resolves (idx : String → String → Option Obj) (o : Obj)
    (h : objResolves idx o = true) :
    foldObj idx o = some (foldObjSpec idx o) := by
  cases o with
  | mk t i attrs rels =>
    simp only [objResolves, Obj.rels] at h
    simp only [foldObj, foldObjSpec]
    rw [traverseOpt_eq_map (relPairFold idx)
      (fun pr => (pr.1, foldRelEntrySpec idx pr.2))
      (relEntryResolves idx) (relPairFold_resolves idx) rels h]

/-- C2 counterexample: on a page whose primary record references
certificates id 6 while only id 5 is included, the code fold raises a
KeyError (none) instead of completing with the unmatched reference left
as a bare stub, so the claimed stub-preserving, error-free fold fails. -/
theorem c2_fold_references_counterexample :
    fold_included_into_page_data c2badPage = none ∧
    fold_included_into_page_data c2badPage ≠ some (foldSpec c2badPage) := by
  constructor
  · rfl
  · intro h
    have hn : fold_included_into_page_data c2badPage = none := rfl
    rw [hn] at h
    exact Option.noConfusion h

/-- C2 (amended): on every page all of whose relationship references
have a matching entry in the included set, folding succeeds and replaces
each reference (single, or element-wise in order for lists) by the full
embedded record, exactly as the stub-preserving spec fold prescribes; a
page with an unmatched reference instead makes the fold raise KeyError. -/
theorem c2_fold_references_amended (p : Page)
    (h : pageResolves p = true) :
    fold_included_into_page_data p = some (foldSpec p) := by
  obtain ⟨pd, pincl, plinks⟩ := p
  cases pincl with
  | none => cases pd <;> rfl
  | some incl =>
    cases pd with
    | one o => rfl
    | many os =>
      simp only [pageResolves] at h
      simp only [fold_included_into_page_data, foldSpec]
      rw [traverseOpt_eq_map (foldObj (buildIndex incl))
        (foldObjSpec (buildIndex incl)) (objResolves (buildIndex incl))
        (foldObj_resolves (buildIndex incl)) os h]

/-- Witness for the amended C2 on a concrete fully-resolving page. -/
theorem c2_fold_references_amended_witness :
    fold_included_into_page_data c2goodPage = some (foldSpec c2goodPage) :=
  c2_fold_references_amended c2goodPage rfl

/-- C5: the fold is idempotent: whenever folding a page succeeds,
folding the folded page succeeds and changes nothing, because every
embedded record looks itself up in the unchanged includes index. -/
theorem c5_fold_idempotent (p q : Page)
    (h : fold_included_into_page_data p = some q) :
    fold_included_into_page_data q = some q := by
  obtain ⟨pd, pincl, plinks⟩ := p
  cases pincl with
  | none =>
    cases pd with
    | one o =>
      simp only [fold_included_into_page_data] at h
      cases h
      rfl
    | many os =>
      simp only [fold_included_into_page_data] at h
      cases h
      rfl
  | some incl =>
    cases pd with
    | one o =>
      simp only [fold_included_into_page_data] at h
      cases h
      rfl
    | many os =>
      simp only [fold_included_into_page_data] at h
      cases htr : traverseOpt (foldObj (buildIndex incl)) os with
      | none => rw [htr] at h; cases h
      | some os2 =>
        rw [htr] at h
        cases h
        simp only [fold_included_into_page_data]
        rw [traverseOpt_stable (foldObj (buildIndex incl))
          (foldObj_stable (buildIndex incl) (buildIndex_sound incl)) os os2 htr]

/-- Witness for C5 on a concrete page: folding the already-folded page
is a no-op. -/
theorem c5_fold_idempotent_witness :
    fold_included_into_page_data (foldSpec c5page) = some (foldSpec c5page) :=
  c5_fold_idempotent c5page (foldSpec c5page) rfl

/-- C10: a page without an included list, or whose top-level data is a
single object rather than a list, passes through the fold completely
unchanged. -/
theorem c10_fold_frame :
    (∀ p : Page, p.included = none →
      fold_included_into_page_data p = some p) ∧
    (∀ (p : Page) (o : Obj), p.data = .one o →
      fold_included_into_page_data p = some p) := by
  constructor
  · intro p h
    obtain ⟨pd, pincl, plinks⟩ := p
    cases pincl with
    | none => cases pd <;> rfl
    | some incl => exact Option.noConfusion h
  · intro p o h
    obtain ⟨pd, pincl, plinks⟩ := p
    cases pd with
    | one o2 => cases pincl <;> rfl
    | many os => exact PageData.noConfusion h

/-- Witness for C10 on concrete pages with no included key and with
single-object data. -/
theorem c10_fold_frame_witness :
    fold_included_into_page_data c10noInclPage = some c10noInclPage ∧
    fold_included_into_page_data c10onePage = some c10onePage :=
  ⟨c10_fold_frame.1 c10noInclPage rfl,
   c10_fold_frame.2 c10onePage (fullRec "devices" "d7") rfl⟩

/-- The request loop never issues fewer requests than it has already
made. -/
theorem requestFrom_made_ge (server : Nat → HttpAttempt) :
    ∀ b m, m ≤ (requestFrom server b m).made := by
  intro b
  induction b with
  | zero => intro m; exact Nat.le_refl m
  | succ b ih =>
    intro m
    simp only [requestFrom]
    split
    · exact Nat.le_trans (Nat.le_succ m) (ih (m + 1))
    · split
      · exact Nat.le_succ m
      · split
        · exact Nat.le_succ m
        · split
          · split
            · exact Nat.le_succ m
            · split
              · exact Nat.le_trans (Nat.le_succ m) (ih (m + 1))
              · exact Nat.le_succ m
          · split
            · exact Nat.le_trans (Nat.le_succ m) (ih (m + 1))
            · exact Nat.le_succ m

/-- With budget left, the request loop issues at least one request. -/
theorem requestFrom_made_succ (server : Nat → HttpAttempt) (b m : Nat) :
    m + 1 ≤ (requestFrom server (b + 1) m).made := by
  simp only [requestFrom]
  split
  · exact requestFrom_made_ge server b (m + 1)
  · split
    · exact Nat.le_refl (m + 1)
    · split
      · exact Nat.le_refl (m + 1)
      · split
        · split
          · exact Nat.le_refl (m + 1)
          · split
            · exact requestFrom_made_ge server b (m + 1)
            · exact Nat.le_refl (m + 1)
        · split
          · exact requestFrom_made_ge server b (m + 1)
          · exact Nat.le_refl (m + 1)

/-- C1: a request whose first response is a 429 carrying
user-hour-rem:0 raises the rate-limit HTTPError at once, after exactly
one request; a 429 carrying user-hour-rem:n with n positive makes the
loop continue with the next attempt, so a second request is issued
within the budget. -/
theorem c1_rate_limit_retry (server : Nat → HttpAttempt) (hdr : String)
    (b : Nat) :
    (server 0 = .response 429 (some hdr) → parseUserHourRem hdr = some 0 →
      requestFrom server (b + 1) 0 = .failure (.httpError 429) 1) ∧
    (∀ n, server 0 = .response 429 (some hdr) →
      parseUserHourRem hdr = some n → 0 < n →
      requestFrom server (b + 2) 0 = requestFrom server (b + 1) 1 ∧
      2 ≤ (requestFrom server (b + 2) 0).made) := by
  constructor
  · intro hs hp
    simp only [requestFrom, hs, hp]
    rw [if_neg (by omega : ¬ (429 < 400))]
    rw [if_pos (by omega : ¬ (0 : Nat) > 0)]
  · intro n hs hp hn
    have heq : requestFrom server (b + 2) 0 = requestFrom server (b + 1) 1 := by
      simp only [requestFrom, hs, hp]
      rw [if_neg (by omega : ¬ (429 < 400))]
      rw [if_neg (not_not_intro hn)]
      rw [if_pos (by decide : retryableStatus 429 = true)]
    refine ⟨heq, ?_⟩
    rw [heq]
    exact requestFrom_made_succ server b 1

/-- Witness for C1 on concrete servers: zero remaining quota fails at
once with the 429 error after one request; remaining quota five makes
the loop move on to a second request. -/
theorem c1_rate_limit_retry_witness :
    requestFrom srv429zero 10 0 = .failure (.httpError 429) 1 ∧
    requestFrom srv429five 10 0 = requestFrom srv429five 9 1 ∧
    2 ≤ (requestFrom srv429five 10 0).made :=
  ⟨(c1_rate_limit_retry srv429zero hdrRem0 9).1 rfl (by decide),
   ((c1_rate_limit_retry srv429five hdrRem5 8).2 5 rfl (by decide)
     (by decide)).1,
   ((c1_rate_limit_retry srv429five hdrRem5 8).2 5 rfl (by decide)
     (by decide)).2⟩

/-- C7 counterexample: with the default budget, a 404 response carrying
no X-Rate-Limit header makes the request raise the header lookup
KeyError, not the 404 HTTPError the claim names NotFoundError; the
failure is still immediate, after one request. -/
theorem c7_notfound_counterexample :
    request srv404bare = .failure .keyError 1 ∧
    request srv404bare ≠ .failure (.httpError 404) 1 := by
  constructor
  · rfl
  · decide

/-- C7 (amended): a by-id fetch answered with a 404 that carries the
X-Rate-Limit header raises the 404 HTTPError (NotFoundError) at once,
after exactly one request and with no retry, whatever the header says;
a 404 without that header instead raises KeyError, equally at once. -/
theorem c7_notfound_amended (server : Nat → HttpAttempt) (hdr : String)
    (b : Nat) (hs : server 0 = .response 404 (some hdr)) :
    requestFrom server (b + 1) 0 = .failure (.httpError 404) 1 := by
  simp only [requestFrom, hs]
  rw [if_neg (by omega : ¬ (404 < 400))]
  split
  · rename_i n _
    by_cases hn : ¬ n > 0
    · rw [if_pos hn]
    · rw [if_neg hn]
      rw [if_neg (by decide : ¬ retryableStatus 404 = true)]
  · rw [if_neg (by decide : ¬ retryableStatus 404 = true)]

/-- Witness for the amended C7 on a concrete 404 with the header
present. -/
theorem c7_notfound_amended_witness :
    requestFrom srv404hdr 10 0 = .failure (.httpError 404) 1 :=
  c7_notfound_amended srv404hdr hdrRem5 9 rfl

/-- A falsy URL (None or the empty string) ends the pagination loop at
once: nothing is fetched and nothing is yielded. -/
theorem get_data_iter_run_falsy (server : String → Option Page)
    (u : Option String) (h : truthy u = false) :
    ∀ fuel, get_data_iter_run server fuel u = some ([], []) := by
  intro fuel
  cases fuel with
  | zero => simp [get_data_iter_run, h]
  | succ f =>
    cases u with
    | none => rfl
    | some s =>
      simp only [truthy] at h
      cases hemp : s.isEmpty with
      | false => rw [hemp] at h; simp at h
      | true => simp [get_data_iter_run, hemp]

/-- Traversing a mapped list is traversing with the composition. -/
theorem traverseOpt_map (f : β → Option γ) (g : α → β) :
    ∀ xs : List α,
      traverseOpt f (xs.map g) = traverseOpt (fun x => f (g x)) xs := by
  intro xs
  induction xs with
  | nil => rfl
  | cons a as ih => simp only [List.map_cons, traverseOpt, ih]

/-- Running the iterator over a served page chain whose pages fold to
themselves fetches exactly the listed URLs and yields exactly the listed
data values, in order. -/
theorem pageChain_run (server : String → Option Page) :
    ∀ chain : List (String × Page), PageChain server chain →
      (∀ pr ∈ chain, fold_included_into_page_data pr.2 = some pr.2) →
      ∀ fuel, chain.length ≤ fuel →
      get_data_iter_run server fuel (chain.head?.map Prod.fst) =
        some (chain.map Prod.fst, chain.map (fun pr => pr.2.data)) := by
  intro chain hchain
  induction hchain with
  | last u p hu hs hnext =>
    intro hfold fuel hfuel
    cases fuel with
    | zero => simp at hfuel
    | succ f =>
      have hf : fold_included_into_page_data p = some p :=
        hfold (u, p) (by simp)
      have hrun := get_data_iter_run_falsy server p.links.next hnext f
      simp [get_data_iter_run, hu, hs, hf, hrun]
  | cons u p u2 p2 rest hu hs hnext hu2 hrest ih =>
    intro hfold fuel hfuel
    cases fuel with
    | zero => simp at hfuel
    | succ f =>
      have hf : fold_included_into_page_data p = some p :=
        hfold (u, p) (by simp)
      have hlen : ((u2, p2) :: rest).length ≤ f := by
        simp only [List.length_cons] at hfuel ⊢
        omega
      have ih2 : get_data_iter_run server f (some u2) =
          some (((u2, p2) :: rest).map Prod.fst,
            ((u2, p2) :: rest).map (fun pr => pr.2.data)) :=
        ih (fun pr hpr => hfold pr (List.mem_cons_of_mem _ hpr)) f hlen
      simp [get_data_iter_run, hu, hs, hf, hnext, ih2]

/-- C3: over a chain of pages in which every page before the last
carries a next link and the last does not, the iterator fetches exactly
the chain URLs in server-cursor order, yields exactly the chain data
values, terminates with no fetch beyond the last page, and the all-data
view returns exactly the concatenation of all pages' record lists. -/
theorem c3_pagination (server : String → Option Page)
    (chain : List (String × Page)) (fuel : Nat)
    (hchain : PageChain server chain)
    (hfold : ∀ pr ∈ chain, fold_included_into_page_data pr.2 = some pr.2)
    (hfuel : chain.length ≤ fuel) :
    get_data_iter_run server fuel (chain.head?.map Prod.fst) =
      some (chain.map Prod.fst, chain.map (fun pr => pr.2.data)) ∧
    ∀ dss, traverseOpt (fun pr => pageDataList pr.2.data) chain = some dss →
      get_all_data_run server fuel (chain.head?.map Prod.fst) =
        some dss.flatten := by
  have h1 := pageChain_run server chain hchain hfold fuel hfuel
  refine ⟨h1, ?_⟩
  intro dss hdss
  unfold get_all_data_run
  rw [h1]
  simp only [traverseOpt_map]
  rw [hdss]

/-- Witness for C3: three concrete pages, the first two with next
links; three fetches, three yields, and the concatenated records. -/
theorem c3_pagination_witness :
    get_data_iter_run srv3 3 (some "u1") =
      some (["u1", "u2", "u3"],
        [PageData.many [w1, w2], PageData.many [w3], PageData.many [w4]]) ∧
    get_all_data_run srv3 3 (some "u1") = some [w1, w2, w3, w4] := by
  have hchain : PageChain srv3 [("u1", page1), ("u2", page2), ("u3", page3)] :=
    .cons "u1" page1 "u2" page2 _ rfl rfl rfl rfl
      (.cons "u2" page2 "u3" page3 _ rfl rfl rfl rfl
        (.last "u3" page3 rfl rfl rfl))
  have hfold : ∀ pr ∈ [("u1", page1), ("u2", page2), ("u3", page3)],
      fold_included_into_page_data pr.2 = some pr.2 := by
    intro pr hpr
    simp only [List.mem_cons, List.mem_singleton, List.not_mem_nil] at hpr
    rcases hpr with h | h | h | h
    · subst h; rfl
    · subst h; rfl
    · subst h; rfl
    · cases h
  have h := c3_pagination srv3 [("u1", page1), ("u2", page2), ("u3", page3)]
    3 hchain hfold (by simp)
  exact ⟨h.1, h.2 [[w1, w2], [w3], [w4]] rfl⟩

/-- The freshly initialised credential state is well formed. -/
theorem BearerToken_init_wf (issuer_id key_id key : String) :
    (BearerToken.init issuer_id key_id key).WF := by
  intro t ht
  exact Option.noConfusion ht

/-- Every token access preserves credential well-formedness. -/
theorem BearerToken_token_wf (s : BearerToken) (now : Nat) (h : s.WF) :
    (s.token now).2.WF := by
  unfold BearerToken.token
  by_cases hc : now > s.expires
  · rw [if_pos hc]
    intro t ht
    cases ht
    rfl
  · rw [if_neg hc]
    exact h

/-- C4: while the current time has not passed the cached expiry, every
access returns the identical cached token and leaves the state
untouched, so repeated accesses mint nothing; an access made after the
expiry mints exactly one fresh token whose exp claim is now plus 1200,
caches it together with the new expiry, and (for a well-formed state)
the fresh claim set differs from the previously cached one. -/
theorem c4_token_caching (s : BearerToken) :
    (∀ n1 n2 : Nat, ¬ n1 > s.expires → ¬ n2 > s.expires →
      (s.token n1).1 = s._token ∧ (s.token n1).2 = s ∧
      ((s.token n1).2.token n2).1 = s._token ∧
      ((s.token n1).2.token n2).2 = s) ∧
    (∀ now : Nat, now > s.expires →
      (s.token now).1 = some (mintToken s (now + 1200)) ∧
      (s.token now).2.expires = now + 1200 ∧
      (s.token now).2._token = some (mintToken s (now + 1200)) ∧
      (s.WF → ∀ t0, s._token = some t0 →
        mintToken s (now + 1200) ≠ t0)) := by
  constructor
  · intro n1 n2 h1 h2
    have e1 : s.token n1 = (s._token, s) := by
      unfold BearerToken.token
      rw [if_neg h1]
    have e2 : s.token n2 = (s._token, s) := by
      unfold BearerToken.token
      rw [if_neg h2]
    refine ⟨by rw [e1], by rw [e1], ?_, ?_⟩
    · rw [e1]
      exact congrArg Prod.fst e2
    · rw [e1]
      exact congrArg Prod.snd e2
  · intro now hc
    have e : s.token now = (some (mintToken s (now + 1200)),
        { s with expires := now + 1200,
                 _token := some (mintToken s (now + 1200)) }) := by
      unfold BearerToken.token
      rw [if_pos hc]
    refine ⟨by rw [e], by rw [e], by rw [e], ?_⟩
    intro hwf t0 ht0 heq
    have hexp : t0.exp = s.expires := hwf t0 ht0
    have hmint : (mintToken s (now + 1200)).exp = t0.exp := by rw [heq]
    simp only [mintToken] at hmint
    omega

/-- Witness for C4 at a concrete cached state: accesses at 1500 and
2000 (not past expiry 2000) return the cached token and change nothing;
an access at 3000 mints the fresh token with expiry 4200, caches it,
and its claim set differs from the cached one. -/
theorem c4_token_caching_witness :
    (s4.token 1500).1 = s4._token ∧ (s4.token 1500).2 = s4 ∧
    ((s4.token 1500).2.token 2000).1 = s4._token ∧
    ((s4.token 1500).2.token 2000).2 = s4 ∧
    (s4.token 3000).1 = some (mintToken s4 4200) ∧
    (s4.token 3000).2.expires = 4200 ∧
    (s4.token 3000).2._token = some (mintToken s4 4200) ∧
    mintToken s4 4200 ≠ tokOld := by
  have h1 := (c4_token_caching s4).1 1500 2000 (by decide) (by decide)
  have h2 := (c4_token_caching s4).2 3000 (by decide)
  have hwf : s4.WF := by
    intro t ht
    cases ht
    rfl
  exact ⟨h1.1, h1.2.1, h1.2.2.1, h1.2.2.2, h2.1, h2.2.1, h2.2.2.1,
    h2.2.2.2 hwf tokOld rfl⟩

/-- C6: when a declared relationship of a bound resource holds data and
is not shadowed by the record id or an attribute, attribute access
returns the lazy handle capturing the declared multiple flag, the
relationship data and the related link; each invocation of the handle
performs one synchronous fetch of the related link, a collection fetch
when multiple and a single fetch otherwise, and a second invocation
fetches again: nothing is memoized. -/
theorem c6_lazy_relationship (cls : ResourceClass) (d : ResourceData)
    (item : String) (mult : Bool) (entry : RelEntry) (url : String)
    (hid : ¬ item = "id")
    (hattr : d.attributes.lookup item = none)
    (hdecl : cls.relationships.lookup item = some mult)
    (hdata : d.relationships.lookup item = some entry)
    (hlink : entry.related = some url) :
    Resource.getattr cls d item =
      .lazy { multiple := mult,
              relData := entry.data,
              relatedLink := entry.related,
              inclusions := buildIndex d.included } ∧
    invokeGetter { multiple := mult,
                   relData := entry.data,
                   relatedLink := entry.related,
                   inclusions := buildIndex d.included } [] =
      some [if mult then .collectionFetch url else .singleFetch url] ∧
    invokeGetter { multiple := mult,
                   relData := entry.data,
                   relatedLink := entry.related,
                   inclusions := buildIndex d.included }
      [if mult then .collectionFetch url else .singleFetch url] =
      some [if mult then .collectionFetch url else .singleFetch url,
        if mult then .collectionFetch url else .singleFetch url] := by
  refine ⟨?_, ?_, ?_⟩
  · simp only [Resource.getattr]
    rw [if_neg hid]
    simp only [hattr, hdecl, hdata]
  · simp only [invokeGetter, hlink]
    cases mult <;> rfl
  · simp only [invokeGetter, hlink]
    cases mult <;> rfl

/-- Witness for C6 on a concrete profile record whose certificates
relationship holds a bare reference and a related link: the access
returns the getter, and two invocations record two collection fetches
of the related URL. -/
theorem c6_lazy_relationship_witness :
    Resource.getattr c6cls c6data "certificates" =
      .lazy { multiple := true,
              relData := .many [bareRef "certificates" "5"],
              relatedLink :=
                some "https://api.example/v1/profiles/p1/certificates",
              inclusions := buildIndex c6data.included } ∧
    invokeGetter { multiple := true,
                   relData := .many [bareRef "certificates" "5"],
                   relatedLink :=
                     some "https://api.example/v1/profiles/p1/certificates",
                   inclusions := buildIndex c6data.included } [] =
      some [.collectionFetch
        "https://api.example/v1/profiles/p1/certificates"] ∧
    invokeGetter { multiple := true,
                   relData := .many [bareRef "certificates" "5"],
                   relatedLink :=
                     some "https://api.example/v1/profiles/p1/certificates",
                   inclusions := buildIndex c6data.included }
      [.collectionFetch "https://api.example/v1/profiles/p1/certificates"] =
      some [.collectionFetch
          "https://api.example/v1/profiles/p1/certificates",
        .collectionFetch
          "https://api.example/v1/profiles/p1/certificates"] :=
  c6_lazy_relationship c6cls c6data "certificates" true
    { data := .many [bareRef "certificates" "5"],
      related := some "https://api.example/v1/profiles/p1/certificates",
      paging := false }
    "https://api.example/v1/profiles/p1/certificates"
    (by decide) rfl rfl rfl rfl

/-- Appending a fresh name to a registry makes it readable under that
name. -/
theorem dictGet_append_fresh (name : String) (cls : Nat) :
    ∀ reg : List (String × Nat), registryContains reg name = false →
      dictGet (reg ++ [(name, cls)]) name = some cls := by
  intro reg
  induction reg with
  | nil =>
    intro _
    simp [dictGet]
  | cons pr tl ih =>
    intro h
    have hp : ¬ pr.1 = name := by
      intro he
      simp [registryContains, he] at h
    have htl : registryContains tl name = false := by
      simp only [registryContains, List.any_cons, Bool.or_eq_false_iff] at h
      exact h.2
    simp only [List.cons_append, dictGet]
    rw [if_neg hp]
    exact ih htl

/-- Overwriting a present name in a registry makes the new class
readable under that name. -/
theorem dictGet_overwrite (name : String) (cls : Nat) :
    ∀ reg : List (String × Nat), registryContains reg name = true →
      dictGet (reg.map (fun pr => if pr.1 = name then (name, cls) else pr))
        name = some cls := by
  intro reg
  induction reg with
  | nil =>
    intro h
    simp [registryContains] at h
  | cons pr tl ih =>
    intro h
    by_cases hp : pr.1 = name
    · simp only [List.map_cons]
      rw [if_pos hp]
      simp [dictGet]
    · have htl : registryContains tl name = true := by
        simp only [registryContains, List.any_cons] at h
        rcases Bool.or_eq_true_iff.mp h with h1 | h2
        · exact absurd (of_decide_eq_true h1) hp
        · exact h2
      simp only [List.map_cons]
      rw [if_neg hp]
      simp only [dictGet]
      rw [if_neg hp]
      exact ih htl

/-- C8 counterexample: registering the name devices a second time
through Object.objectclass succeeds and overwrites the existing entry,
so duplicate registration neither fails fast nor leaves the registry
unchanged. -/
theorem c8_registry_counterexample :
    objectclass [("devices", 1)] "devices" 2 = [("devices", 2)] ∧
    objectclass [("devices", 1)] "devices" 2 ≠ [("devices", 1)] := by
  constructor
  · rfl
  · decide

/-- C8 (amended): the resources.py registry resource_type fails fast on
a duplicate type name, leaving the registry unchanged, and succeeds
exactly when the name is absent, appending the entry; the test.py
registry Object.objectclass performs no duplicate check: registration
always succeeds and a repeated name overwrites the stored class. -/
theorem c8_registry_amended (reg : List (String × Nat)) (name : String)
    (cls : Nat) :
    (registryContains reg name = true →
      resource_type reg name cls = .error "duplicate type name") ∧
    (registryContains reg name = false →
      resource_type reg name cls = .ok (reg ++ [(name, cls)])) ∧
    dictGet (objectclass reg name cls) name = some cls := by
  refine ⟨?_, ?_, ?_⟩
  · intro h
    unfold resource_type
    rw [h]
    rfl
  · intro h
    unfold resource_type
    rw [h]
    rfl
  · unfold objectclass dictSet
    by_cases h : registryContains reg name = true
    · rw [if_pos h]
      exact dictGet_overwrite name cls reg h
    · rw [if_neg h]
      exact dictGet_append_fresh name cls reg (Bool.eq_false_iff.mpr h)

/-- Witness for the amended C8: duplicate registration of devices fails
through resource_type and leaves nothing changed, fresh registration
succeeds, and objectclass silently overwrites. -/
theorem c8_registry_amended_witness :
    resource_type [("devices", 1)] "devices" 2 =
      .error "duplicate type name" ∧
    resource_type [] "devices" 2 = .ok [("devices", 2)] ∧
    dictGet (objectclass [("devices", 1)] "devices" 2) "devices" =
      some 2 :=
  ⟨(c8_registry_amended [("devices", 1)] "devices" 2).1 (by decide),
   (c8_registry_amended [] "devices" 2).2.1 (by decide),
   (c8_registry_amended [("devices", 1)] "devices" 2).2.2⟩

/-- C9: the attributes object of the outgoing device PATCH document
contains exactly the attributes the caller supplied: name is present
with the supplied value exactly when supplied, status likewise, nothing
else appears, and an omitted attribute is absent rather than null. -/
theorem c9_update_payload (id : String) (name status : Option String) :
    (∀ v, ("name", v) ∈ (Device.update_payload id name status).attributes ↔
      name = some v) ∧
    (∀ v, ("status", v) ∈ (Device.update_payload id name status).attributes ↔
      status = some v) ∧
    (∀ k v, (k, v) ∈ (Device.update_payload id name status).attributes →
      (k = "name" ∧ name = some v) ∨ (k = "status" ∧ status = some v)) := by
  refine ⟨?_, ?_, ?_⟩
  · intro v
    cases name <;> cases status <;>
      simp [Device.update_payload, Device.Meta.update, eq_comm]
  · intro v
    cases name <;> cases status <;>
      simp [Device.update_payload, Device.Meta.update, eq_comm]
  · intro k v
    cases name <;> cases status <;>
      simp [Device.update_payload, Device.Meta.update] <;>
      intro h <;> simp [h, eq_comm]

/-- Witness for C9: updating only the device name puts exactly that
name in the attributes object, and the omitted status is absent. -/
theorem c9_update_payload_witness :
    ("name", "kitchen-ipad") ∈
      (Device.update_payload "d1" (some "kitchen-ipad") none).attributes ∧
    ("status", "DISABLED") ∉
      (Device.update_payload "d1" (some "kitchen-ipad") none).attributes := by
  constructor
  · exact ((c9_update_payload "d1" (some "kitchen-ipad") none).1
      "kitchen-ipad").mpr rfl
  · intro h
    exact Option.noConfusion
      (((c9_update_payload "d1" (some "kitchen-ipad") none).2.1
        "DISABLED").mp h)
